import Mathlib

/-!
Verification of the MariaDB binlog decoder (`src/util.rs`, `src/service.rs`,
`src/main.rs`) through a shallow embedding.  Byte buffers are `List Nat`
(each element a byte value), Rust `Result<_, Box<dyn Error>>` becomes
`Except RunError _`, and Rust panics (out-of-range slicing, `unwrap` on
`None`, arithmetic overflow in debug builds, explicit `panic!`) are modelled
as the distinct `RunError.panicked` outcome, since a panic aborts the
process instead of returning the library's typed error value.
-/

/-- Failure modes of the decoder.  `myError` models the crate's own
`MyError(String)` typed error, `utf8Error` a returned `FromUtf8Error`,
`ioError` a returned `std::io::Error` (short read), `panicked` a Rust
panic (process abort, not a returned error), and `fuelOut` marks
non-termination of the unbounded iterator loop in the fuel model. -/
inductive RunError : Type
  | myError (s : String)
  | utf8Error
  | ioError (s : String)
  | panicked (s : String)
  | fuelOut
deriving DecidableEq, Repr

/-- Event header, 19 bytes (`model.rs` `EventHeader`). -/
structure EventHeader : Type where
  timestamp : Nat
  type_code : Nat
  server_id : Nat
  event_length : Nat
  next_event_position : Nat
  flags : Nat
deriving DecidableEq, Repr

/-- Table-Map event body (`model.rs` `EventBodyTypeCode19`); registry entries
consumed by the row-event decoder. -/
structure EventBodyTypeCode19 : Type where
  table_id : Nat
  reserved_for_future_use : Nat
  database_name_length : Nat
  database_name : String
  table_name_length : Nat
  table_name : String
  number_of_columns : Nat
  column_types : List Nat
  column_types_string_for_human : List String
  number_of_metadata_block : Nat
  metadata_block : List Nat
  metadata_block_string_for_human : List String
  metadata_block_data_raw : List (List Nat)
  columns_can_be_null : List Bool
  optional_metadata_block : List Nat
deriving DecidableEq, Repr

/-- Row event body (`model.rs` `EventBodyTypeCode23To25`). -/
structure EventBodyTypeCode23To25 : Type where
  type_string_for_human : String
  table_id : Nat
  flags : Nat
  number_of_columns : Nat
  columns_used : List Bool
  columns_used_for_update : Option (List Bool)
  null_bitmap : List Bool
  column_data : List String
  null_bitmap_for_update : Option (List Bool)
  column_data_for_update : Option (List String)
deriving DecidableEq, Repr

/-- Little-endian value of a byte list (least significant byte first). -/
def leVal : List Nat → Nat
  | [] => 0
  | b :: rest => b + 256 * leVal rest

/-- Big-endian value of a byte list (most significant byte first). -/
def beVal : List Nat → Nat
  | [] => 0
  | b :: rest => b * 256 ^ rest.length + beVal rest

/-- Rust slice indexing `&l[a..b]`: returns the sub-list when the range is in
bounds and the out-of-range panic otherwise. -/
def slice_range (l : List Nat) (a b : Nat) : Except RunError (List Nat) :=
  if a ≤ b ∧ b ≤ l.length then .ok ((l.drop a).take (b - a))
  else .error (.panicked "slice index out of range")

/-- Two's-complement signed value of a little-endian byte list
(`i8/i16/i32/i64::from_le_bytes`). -/
def signed_of_le (bs : List Nat) : Int :=
  let v := leVal bs
  if v < 2 ^ (8 * bs.length - 1) then (v : Int) else (v : Int) - 2 ^ (8 * bs.length)

/-- Rust `format!` `:02` padding: zero-pad to two digits. -/
def pad2 (n : Nat) : String :=
  if n < 10 then "0" ++ Nat.repr n else Nat.repr n

/-- Zero-pad to four digits (chrono `%Y`). -/
def pad4 (n : Nat) : String :=
  if n < 10 then "000" ++ Nat.repr n
  else if n < 100 then "00" ++ Nat.repr n
  else if n < 1000 then "0" ++ Nat.repr n
  else Nat.repr n

/-- The base64 standard alphabet. -/
def b64Alphabet : List Char :=
  "ABCDEFGHIJKLMNOPQRSTUVWXYZabcdefghijklmnopqrstuvwxyz0123456789+/".toList

/-- Character at an index of the base64 alphabet. -/
def b64c (n : Nat) : Char := b64Alphabet.getD n (Char.ofNat 65)

/-- Standard base64 encoding with padding (`BASE64_STANDARD.encode`). -/
def base64_encode : List Nat → String
  | [] => ""
  | [a] => String.mk [b64c (a / 4), b64c (a % 4 * 16)] ++ "=="
  | [a, b] => String.mk [b64c (a / 4), b64c (a % 4 * 16 + b / 16), b64c (b % 16 * 4)] ++ "="
  | a :: b :: c :: rest =>
    String.mk [b64c (a / 4), b64c (a % 4 * 16 + b / 16), b64c (b % 16 * 4 + c / 64),
      b64c (c % 64)] ++ base64_encode rest

/-- UTF-8 validation and decoding of a byte list, following the byte-range
table used by Rust's `String::from_utf8` (rejecting overlong forms,
surrogates and code points above `0x10FFFF`).  `none` models the
`FromUtf8Error` case. -/
def utf8_decode : List Nat → Option (List Char)
  | [] => some []
  | b :: rest =>
    if b < 128 then (utf8_decode rest).map (fun cs => Char.ofNat b :: cs)
    else if b < 194 then none
    else if b < 224 then
      match rest with
      | c :: rest2 =>
        if 128 ≤ c ∧ c < 192 then
          (utf8_decode rest2).map (fun cs => Char.ofNat ((b - 192) * 64 + (c - 128)) :: cs)
        else none
      | _ => none
    else if b < 240 then
      match rest with
      | c :: d :: rest2 =>
        let lo := if b = 224 then 160 else 128
        let hi := if b = 237 then 160 else 192
        if lo ≤ c ∧ c < hi ∧ 128 ≤ d ∧ d < 192 then
          (utf8_decode rest2).map
            (fun cs => Char.ofNat ((b - 224) * 4096 + (c - 128) * 64 + (d - 128)) :: cs)
        else none
      | _ => none
    else if b < 245 then
      match rest with
      | c :: d :: e :: rest2 =>
        let lo := if b = 240 then 144 else 128
        let hi := if b = 244 then 144 else 192
        if lo ≤ c ∧ c < hi ∧ 128 ≤ d ∧ d < 192 ∧ 128 ≤ e ∧ e < 192 then
          (utf8_decode rest2).map
            (fun cs =>
              Char.ofNat ((b - 240) * 262144 + (c - 128) * 4096 + (d - 128) * 64 + (e - 128)) :: cs)
        else none
      | _ => none
    else none

/-- Model of `util.rs` `try_convert_binary_to_string`: render bytes as a UTF-8 string
when valid, otherwise fall back to a base64 rendering. -/
def try_convert_binary_to_string (buffer : List Nat) : String :=
  match utf8_decode buffer with
  | some cs => "this is a String, value is `" ++ String.mk cs ++ "`"
  | none => "this is not a String, value with base64 is " ++ base64_encode buffer

/-- Rendering of `f32::from_le_bytes(..).to_string()` from the 32 raw bits.
The decimal text of IEEE-754 formatting is outside this embedding (no claim
depends on the rendered float text, only on the fact that exactly one string
is produced per non-null column); the bit pattern is kept so the function
stays injective on byte inputs. -/
def f32_to_string (bits : Nat) : String := "f32 bits " ++ Nat.repr bits

/-- Rendering of `f64::from_le_bytes(..).to_string()` from the 64 raw bits;
same modelling note as `f32_to_string`. -/
def f64_to_string (bits : Nat) : String := "f64 bits " ++ Nat.repr bits

/-- Model of the chrono rendering used for TIMESTAMP2: unix seconds shifted to
the hard-coded `+08:00` offset and formatted `%Y-%m-%d %H:%M:%S`, using the
standard civil-from-days calendar algorithm. -/
def timestamp2_to_string (secs : Nat) : String :=
  let total := secs + 8 * 3600
  let days := total / 86400
  let sod := total % 86400
  let z := days + 719468
  let era := z / 146097
  let doe := z % 146097
  let yoe := (doe - doe / 1460 + doe / 36524 - doe / 146096) / 365
  let y0 := yoe + era * 400
  let doy := doe - (365 * yoe + yoe / 4 - yoe / 100)
  let mp := (5 * doy + 2) / 153
  let d := doy - (153 * mp + 2) / 5 + 1
  let m := if mp < 10 then mp + 3 else mp - 9
  let y := if m ≤ 2 then y0 + 1 else y0
  pad4 y ++ "-" ++ pad2 m ++ "-" ++ pad2 d ++ " " ++
    pad2 (sod / 3600) ++ ":" ++ pad2 (sod / 60 % 60) ++ ":" ++ pad2 (sod % 60)

/-- Model of `util.rs` `parse_lenenc`: length-encoded integer.  First byte below 251 is
the value itself; 252/253/254 announce 2-, 3- and 8-byte little-endian
payloads; 251 and 255 return the typed `MyError`.  Reading announced bytes
that are not present is an out-of-range slice panic in the source
(`buffer[1..3]` and friends), modelled by `panicked`. -/
def parse_lenenc (buffer : List Nat) : Except RunError (Nat × Nat) :=
  match buffer with
  | [] => .error (.panicked "slice index out of range")
  | b :: rest =>
    if b < 251 then .ok (b, 1)
    else if b = 252 then
      match rest with
      | x :: y :: _ => .ok (leVal [x, y], 3)
      | _ => .error (.panicked "slice index out of range")
    else if b = 253 then
      match rest with
      | x :: y :: z :: _ => .ok (leVal [x, y, z], 4)
      | _ => .error (.panicked "slice index out of range")
    else if b = 254 then
      match rest with
      | x1 :: x2 :: x3 :: x4 :: x5 :: x6 :: x7 :: x8 :: _ =>
        .ok (leVal [x1, x2, x3, x4, x5, x6, x7, x8], 9)
      | _ => .error (.panicked "slice index out of range")
    else .error (.myError "lenenc parse error")

/-- The eight bits of one byte, bit 0 (least significant) first.  This is the
`format!` binary-string expansion plus reversal used by `parse_bitmap`. -/
def byteBits (b : Nat) : List Bool :=
  [b.testBit 0, b.testBit 1, b.testBit 2, b.testBit 3,
   b.testBit 4, b.testBit 5, b.testBit 6, b.testBit 7]

/-- LSB-first bit expansion of a byte list (the loop body of `parse_bitmap`). -/
def bitsOfBytes : List Nat → List Bool
  | [] => []
  | b :: rest => byteBits b ++ bitsOfBytes rest

/-- Model of `util.rs` `parse_bitmap`: expand every byte LSB-first and truncate. -/
def parse_bitmap (buffer : List Nat) (truncate : Nat) : List Bool :=
  (bitsOfBytes buffer).take truncate

/-- The `FIXED_LENGTH_DATA_TYPE` catalogue of `util.rs` (lazy static map from
column-type name to its fixed byte width). -/
def fixed_length_data_type : List (String × Nat) :=
  [("MYSQL_TYPE_NULL", 0), ("MYSQL_TYPE_TINY", 1), ("MYSQL_TYPE_YEAR", 2),
   ("MYSQL_TYPE_SHORT", 2), ("MYSQL_TYPE_INT24", 3), ("MYSQL_TYPE_LONG", 4),
   ("MYSQL_TYPE_LONGLONG", 8), ("MYSQL_TYPE_FLOAT", 4), ("MYSQL_TYPE_DOUBLE", 8)]

/-- The `should_be_decode_from_table_event_data_type` vector of
`parse_column_data_for_row_event`: the metadata-dependent column types. -/
def should_be_decode_from_table_event_data_type : List String :=
  ["MYSQL_TYPE_BIT", "MYSQL_TYPE_ENUM", "MYSQL_TYPE_SET", "MYSQL_TYPE_NEWDECIMAL",
   "MYSQL_TYPE_DECIMAL", "MYSQL_TYPE_VARCHAR", "MYSQL_TYPE_VAR_STRING",
   "MYSQL_TYPE_STRING", "MYSQL_TYPE_TINY_BLOB", "MYSQL_TYPE_MEDIUM_BLOB",
   "MYSQL_TYPE_LONG_BLOB", "MYSQL_TYPE_BLOB", "MYSQL_TYPE_TIMESTAMP2",
   "MYSQL_TYPE_DATETIME2", "MYSQL_TYPE_TIME2", "MYSQL_TYPE_FLOAT",
   "MYSQL_TYPE_DOUBLE"]

/-- One per-column step of the raw-metadata iterator (`util.rs` lines
376-387): when the column type is metadata-dependent the iterator is
advanced (`iter.next()`), otherwise the fake empty entry stands in and the
iterator is untouched.  Returns the entry paired with the column and the
iterator's remaining entries. -/
def consultMeta (t : String) (rs : List (List Nat)) :
    Option (List Nat) × List (List Nat) :=
  if should_be_decode_from_table_event_data_type.contains t then (rs.head?, rs.tail)
  else (some [], rs)

/-- Model of `util.rs` `parse_quantity_of_bytes_for_decimal_part`: bytes occupied by a
digit count of the packed-decimal format (4 bytes per 9 digits plus a tail). -/
def parse_quantity_of_bytes_for_decimal_part (n : Nat) : Nat :=
  n / 9 * 4 + (n % 9 + 1) / 2

/-- Big-endian u32 of each aligned 4-byte group, rendered and joined (the
loop of `parse_numberic_for_decimal`). -/
def decimalGroups : List Nat → List String
  | a :: b :: c :: d :: rest => Nat.repr (((a * 256 + b) * 256 + c) * 256 + d) :: decimalGroups rest
  | _ => []

/-- Model of `util.rs` `parse_numberic_for_decimal`: left-pad the bytes with zeros to a
multiple of 4, then render each 4-byte group as a big-endian u32 and
concatenate. -/
def parse_numberic_for_decimal (buffer : List Nat) : String :=
  let r := buffer.length % 4
  let data := (if r > 0 then List.replicate (4 - r) 0 else []) ++ buffer
  String.join (decimalGroups data)

/-- Bitwise inversion (`!b` on `u8`) of the first `n` bytes, the negative-sign
loop of `bin_to_decimal`. -/
def invert_first : Nat → List Nat → List Nat
  | _, [] => []
  | 0, l => l
  | n + 1, x :: xs => (x ^^^ 255) :: invert_first n xs

/-- The unconditional `buffer[0] ^= 0x80` of `bin_to_decimal`. -/
def flip_top : List Nat → List Nat
  | [] => []
  | x :: xs => (x ^^^ 128) :: xs

/-- Model of `util.rs` `bin_to_decimal`: packed-decimal to string.  The sign is the top
bit of byte 0 (clear means negative); a negative value has all its
`B_i + B_f` bytes inverted; the top bit of byte 0 is always flipped; the
integer and fractional groups are rendered big-endian and joined with a dot.
Note that no sign character is ever emitted.  Returns the rendered string,
the consumed byte count, and the buffer after its in-place mutation.
A `decimals > precision` argument underflows the `usize` subtraction and a
too-short buffer fails the inversion loop or the group slicing; both are
panics in the source. -/
def bin_to_decimal (buffer : List Nat) (precision decimals : Nat) :
    Except RunError (String × Nat × List Nat) :=
  match buffer with
  | [] => .error (.panicked "index out of bounds")
  | s0 :: _ =>
    if decimals > precision then .error (.panicked "attempt to subtract with overflow")
    else
      let integer_part_byte_n := parse_quantity_of_bytes_for_decimal_part (precision - decimals)
      let decimal_part_byte_n := parse_quantity_of_bytes_for_decimal_part decimals
      let total_byte_n := integer_part_byte_n + decimal_part_byte_n
      if total_byte_n > buffer.length then .error (.panicked "index out of bounds")
      else
        let sub2 := flip_top (if s0 &&& 128 = 0 then invert_first total_byte_n buffer else buffer)
        .ok (parse_numberic_for_decimal (sub2.take integer_part_byte_n) ++ "." ++
          parse_numberic_for_decimal ((sub2.drop integer_part_byte_n).take decimal_part_byte_n),
          total_byte_n, sub2)

/-- The body of the non-null arm of the per-column `match` in
`parse_column_data_for_row_event`: decode one column value of type name `t`
with its paired raw metadata entry at `off` in `buf`.  Returns the rendered
string, the advanced offset and the (possibly mutated) buffer. -/
def decodeOne (t : String) (mraw : Option (List Nat)) (buf : List Nat) (off : Nat) :
    Except RunError (String × Nat × List Nat) :=
  let field_length := (List.lookup t fixed_length_data_type).getD 0
  match t with
  | "MYSQL_TYPE_TINY" | "MYSQL_TYPE_SHORT" | "MYSQL_TYPE_LONG" | "MYSQL_TYPE_LONGLONG" =>
    match slice_range buf off (off + field_length) with
    | .error e => .error e
    | .ok bs => .ok (toString (signed_of_le bs), off + field_length, buf)
  | "MYSQL_TYPE_FLOAT" =>
    match slice_range buf off (off + field_length) with
    | .error e => .error e
    | .ok bs => .ok (f32_to_string (leVal bs), off + field_length, buf)
  | "MYSQL_TYPE_DOUBLE" =>
    match slice_range buf off (off + field_length) with
    | .error e => .error e
    | .ok bs => .ok (f64_to_string (leVal bs), off + field_length, buf)
  | "MYSQL_TYPE_NEWDECIMAL" =>
    match mraw with
    | none => .error (.panicked "Option unwrap on a None value")
    | some meta =>
      match meta with
      | p :: d :: _ =>
        if off ≤ buf.length then
          match bin_to_decimal (buf.drop off) p d with
          | .error e => .error e
          | .ok (s, skip, sub2) => .ok (s, off + skip, buf.take off ++ sub2)
        else .error (.panicked "slice index out of range")
      | _ => .error (.panicked "index out of bounds")
  | "MYSQL_TYPE_VARCHAR" =>
    match mraw with
    | none => .error (.panicked "Option unwrap on a None value")
    | some meta =>
      match meta with
      | [m0, m1] =>
        if m0 + 256 * m1 > 255 then
          match slice_range buf off (off + 2) with
          | .error e => .error e
          | .ok lb =>
            match slice_range buf (off + 2) (off + 2 + leVal lb) with
            | .error e => .error e
            | .ok payload =>
              .ok (try_convert_binary_to_string payload, off + 2 + leVal lb, buf)
        else
          match slice_range buf off (off + 1) with
          | .error e => .error e
          | .ok lb =>
            match slice_range buf (off + 1) (off + 1 + leVal lb) with
            | .error e => .error e
            | .ok payload =>
              .ok (try_convert_binary_to_string payload, off + 1 + leVal lb, buf)
      | _ => .error (.panicked "could not convert slice to array")
  | "MYSQL_TYPE_DATE" =>
    match slice_range buf off (off + 3) with
    | .error e => .error e
    | .ok bs =>
      let v := leVal bs
      .ok (Nat.repr (v >>> 9) ++ "-" ++ Nat.repr (v >>> 5 % 16) ++ "-" ++ Nat.repr (v % 32),
        off + 3, buf)
  | "MYSQL_TYPE_TIME2" =>
    match slice_range buf off (off + 3) with
    | .error e => .error e
    | .ok bs =>
      if beVal bs < 8388608 then .error (.panicked "attempt to subtract with overflow")
      else
        let val := beVal bs - 8388608
        .ok (pad2 (val >>> 12 % 1024) ++ ":" ++ pad2 (val >>> 6 % 64) ++ ":" ++
          Nat.repr (val % 64), off + 3, buf)
  | "MYSQL_TYPE_DATETIME2" =>
    match slice_range buf off (off + 5) with
    | .error e => .error e
    | .ok bs =>
      if beVal bs < 549755813888 then .error (.panicked "attempt to subtract with overflow")
      else
        let val := beVal bs - 549755813888
        let date_val := val >>> 17
        let time_val := val % 131072
        .ok (Nat.repr (date_val >>> 5 / 13) ++ "-" ++ pad2 (date_val >>> 5 % 13) ++ "-" ++
          pad2 (date_val % 32) ++ " " ++ pad2 (time_val >>> 12 % 4096) ++ ":" ++
          pad2 (time_val >>> 6 % 64) ++ ":" ++ pad2 (time_val % 64), off + 5, buf)
  | "MYSQL_TYPE_TIMESTAMP2" =>
    match slice_range buf off (off + 4) with
    | .error e => .error e
    | .ok bs => .ok (timestamp2_to_string (beVal bs), off, buf)
  | "MYSQL_TYPE_BLOB" =>
    match mraw with
    | none => .error (.panicked "Option unwrap on a None value")
    | some meta =>
      match meta with
      | [] => .error (.panicked "index out of bounds")
      | k :: _ =>
        if k = 1 ∨ k = 2 ∨ k = 3 ∨ k = 4 then
          match slice_range buf off (off + k) with
          | .error e => .error e
          | .ok lb =>
            match slice_range buf (off + k) (off + k + leVal lb) with
            | .error e => .error e
            | .ok payload =>
              .ok (try_convert_binary_to_string payload, off + k + leVal lb, buf)
        else .error (.panicked "blob length by byte is only in range 1 to 4")
  | others => .ok ("type `" ++ others ++ "` is not implement", off, buf)

/-- The loop of `parse_column_data_for_row_event`: walk the null bitmap, pair
each column with its raw metadata entry through `consultMeta` (advanced
whether or not the value is null), and decode the non-null values.  An
exhausted column-type vector is an index-out-of-bounds panic in the source. -/
def rowColumnsLoop (buf : List Nat) (off : Nat) (ts : List String)
    (rs : List (List Nat)) (nb : List Bool) :
    Except RunError (List String × Nat × List Nat) :=
  match nb, ts with
  | [], _ => .ok ([], off, buf)
  | _ :: _, [] => .error (.panicked "index out of bounds")
  | b :: nb2, t :: ts2 =>
    let c := consultMeta t rs
    if b then rowColumnsLoop buf off ts2 c.2 nb2
    else
      match decodeOne t c.1 buf off with
      | .error e => .error e
      | .ok (s, off2, buf2) =>
        match rowColumnsLoop buf2 off2 ts2 c.2 nb2 with
        | .error e => .error e
        | .ok (l, off3, buf3) => .ok (s :: l, off3, buf3)

/-- Model of `util.rs` `parse_column_data_for_row_event`.  The third component of the
result is the buffer after its in-place mutation (the source takes
`&mut [u8]`). -/
def parse_column_data_for_row_event (buffer : List Nat)
    (table_info : EventBodyTypeCode19) (null_bitmap : List Bool) :
    Except RunError (List String × Nat × List Nat) :=
  rowColumnsLoop buffer 0 table_info.column_types_string_for_human
    table_info.metadata_block_data_raw null_bitmap

/-- The column-to-metadata pairing performed by the iterator walk: each column
type is paired with the entry `consultMeta` yields for it.  It is a function
of the column-type vector and the raw metadata list alone; no null bitmap is
involved. -/
def pairMeta : List String → List (List Nat) → List (String × Option (List Nat))
  | [], _ => []
  | t :: ts, rs => (t, (consultMeta t rs).1) :: pairMeta ts (consultMeta t rs).2

/-- Variant of the column loop over pre-paired `(type, metadata)` entries, the
shape §9 of the spec recommends; used to state that the pairing the decoder
applies is independent of the null bitmap. -/
def decodeColumnsPaired (buf : List Nat) (off : Nat)
    (ps : List (String × Option (List Nat))) (nb : List Bool) :
    Except RunError (List String × Nat × List Nat) :=
  match nb, ps with
  | [], _ => .ok ([], off, buf)
  | _ :: _, [] => .error (.panicked "index out of bounds")
  | b :: nb2, (t, mraw) :: ps2 =>
    if b then decodeColumnsPaired buf off ps2 nb2
    else
      match decodeOne t mraw buf off with
      | .error e => .error e
      | .ok (s, off2, buf2) =>
        match decodeColumnsPaired buf2 off2 ps2 nb2 with
        | .error e => .error e
        | .ok (l, off3, buf3) => .ok (s :: l, off3, buf3)

/-- Model of `util.rs` `parse_metadata_block`: cut the per-column raw metadata entry
out of the Table-Map metadata block and render the human-readable
description for the column type.  A type without a width in the catalogue
contributes the empty entry.  The `unwrap`s of the source (missing name in
the field-type catalogue, wrong-width entries) are panics. -/
def parse_metadata_block (metadata_block_mapping : List (Nat × Nat))
    (field_types_mapping : List (Nat × String)) (metadata_block : List Nat)
    (metadata_block_offset : Nat) (content_type : Nat) :
    Except RunError (String × List Nat × Nat) :=
  let metadata_block_length := (List.lookup content_type metadata_block_mapping).getD 0
  match slice_range metadata_block metadata_block_offset
      (metadata_block_offset + metadata_block_length) with
  | .error e => .error e
  | .ok metadata_block_data =>
    if metadata_block_length = 0 then .ok ("", [], 0)
    else
      match List.lookup content_type field_types_mapping with
      | none => .error (.panicked "Option unwrap on a None value")
      | some field_types_string_for_human =>
        let infomation : Except RunError String :=
          if content_type = 4 then
            .ok ("the sizeof(float) is " ++ Nat.repr (metadata_block_data.getD 0 0))
          else if content_type = 5 then
            .ok ("the sizeof(dobule) is " ++ Nat.repr (metadata_block_data.getD 0 0))
          else if content_type = 15 then
            match metadata_block_data with
            | [m0, m1] =>
              .ok ("the maximum length of the string is " ++ Nat.repr (m1 * 256 + m0) ++ " byte")
            | _ => .error (.panicked "could not convert slice to array")
          else if content_type = 16 then
            match metadata_block_data with
            | m0 :: m1 :: _ =>
              .ok ("the length in bits of the bitfield is " ++ Nat.repr m0 ++
                ", the number of bytes occupied by the bitfield is " ++ Nat.repr m1)
            | _ => .error (.panicked "index out of bounds")
          else if content_type = 17 ∨ content_type = 18 ∨ content_type = 19 then
            match metadata_block_data with
            | m0 :: _ =>
              .ok ("the number of decimals for the fractional part is " ++ Nat.repr m0)
            | _ => .error (.panicked "index out of bounds")
          else if content_type = 246 then
            match metadata_block_data with
            | m0 :: m1 :: _ =>
              .ok ("the length of precision is " ++ Nat.repr m0 ++
                ", the length of decimals is " ++ Nat.repr m1)
            | _ => .error (.panicked "index out of bounds")
          else if content_type = 252 then
            match metadata_block_data with
            | m0 :: _ => .ok ("field size is " ++ Nat.repr m0 ++ " bytes")
            | _ => .error (.panicked "index out of bounds")
          else if content_type = 253 then
            match metadata_block_data with
            | m0 :: m1 :: _ =>
              match List.lookup m0 field_types_mapping with
              | none => .error (.panicked "Option unwrap on a None value")
              | some real_name =>
                .ok ("real field type id is " ++ Nat.repr m0 ++ ", real field type name is " ++
                  real_name ++ ", storage length is " ++ Nat.repr m1)
            | _ => .error (.panicked "index out of bounds")
          else if content_type = 254 then
            match metadata_block_data with
            | _ :: m1 :: _ => .ok ("field size is " ++ Nat.repr m1 ++ " bytes")
            | _ => .error (.panicked "index out of bounds")
          else if content_type = 255 then
            match metadata_block_data with
            | m0 :: _ =>
              .ok ("the number of bytes needed to represent the length of the geometry is " ++
                Nat.repr m0)
            | _ => .error (.panicked "index out of bounds")
          else .ok ""
        match infomation with
        | .error e => .error e
        | .ok info =>
          .ok ("field type id is: " ++ Nat.repr content_type ++ ", field type name is: " ++
            field_types_string_for_human ++ ", infomation is [" ++ info ++ "]",
            metadata_block_data, metadata_block_length)

/-- The fields of a row event read before the table registry is consulted
(`service.rs` `deal_type_code_23_to_25` up to the null bitmap). -/
structure RowPrefix : Type where
  table_id : Nat
  flags : Nat
  number_of_columns : Nat
  columns_used : List Bool
  columns_used_for_update : Option (List Bool)
  null_bitmap : List Bool
  offset : Nat
deriving DecidableEq, Repr

/-- The prefix of `deal_type_code_23_to_25`: 6-byte table id zero-extended,
2-byte flags, lenenc column count, columns-used bitmap, for UPDATE (24) a
second columns-used bitmap, then the null bitmap, each bitmap occupying
`(N + 7) / 8` bytes truncated to `N` flags. -/
def parseRowPrefix (buffer : List Nat) (type_code : Nat) :
    Except RunError RowPrefix :=
  match slice_range buffer 0 6 with
  | .error e => .error e
  | .ok table_id_vec =>
    let table_id := leVal (table_id_vec ++ [0, 0])
    match slice_range buffer 6 8 with
    | .error e => .error e
    | .ok flag_bytes =>
      let flags := leVal flag_bytes
      match parse_lenenc (buffer.drop 8) with
      | .error e => .error e
      | .ok (number_of_columns, skip) =>
        let off1 := 8 + skip
        let n_byte := (number_of_columns + 7) / 8
        match slice_range buffer off1 (off1 + n_byte) with
        | .error e => .error e
        | .ok cu_bytes =>
          let columns_used := parse_bitmap cu_bytes number_of_columns
          let off2 := off1 + n_byte
          if type_code = 24 then
            match slice_range buffer off2 (off2 + n_byte) with
            | .error e => .error e
            | .ok cufu_bytes =>
              let columns_used_for_update := parse_bitmap cufu_bytes number_of_columns
              let off3 := off2 + n_byte
              match slice_range buffer off3 (off3 + n_byte) with
              | .error e => .error e
              | .ok nb_bytes =>
                .ok ⟨table_id, flags, number_of_columns, columns_used,
                  some columns_used_for_update, parse_bitmap nb_bytes number_of_columns,
                  off3 + n_byte⟩
          else
            match slice_range buffer off2 (off2 + n_byte) with
            | .error e => .error e
            | .ok nb_bytes =>
              .ok ⟨table_id, flags, number_of_columns, columns_used, none,
                parse_bitmap nb_bytes number_of_columns, off2 + n_byte⟩

/-- Model of `service.rs` `deal_type_code_23_to_25`: decode a row event body against
the table registry.  A table id with no registry entry hits the source's
`table_structs.get(&table_id).unwrap()`, a panic.  For UPDATE (24) the
after-image null bitmap and values are read from the buffer as mutated by
the before-image decoding. -/
def deal_type_code_23_to_25 (buffer : List Nat) (type_code : Nat)
    (table_structs : List (Nat × EventBodyTypeCode19)) :
    Except RunError EventBodyTypeCode23To25 :=
  let type_string_for_human :=
    if type_code = 23 then "insert"
    else if type_code = 24 then "update"
    else if type_code = 25 then "delete"
    else "unknown"
  match parseRowPrefix buffer type_code with
  | .error e => .error e
  | .ok pre =>
    match List.lookup pre.table_id table_structs with
    | none => .error (.panicked "Option unwrap on a None value")
    | some table_info =>
      match rowColumnsLoop (buffer.drop pre.offset) 0
          table_info.column_types_string_for_human table_info.metadata_block_data_raw
          pre.null_bitmap with
      | .error e => .error e
      | .ok (column_data_vec, skip, sub2) =>
        let buffer2 := buffer.take pre.offset ++ sub2
        let off5 := pre.offset + skip
        let n_byte := (pre.number_of_columns + 7) / 8
        if type_code = 24 then
          match slice_range buffer2 off5 (off5 + n_byte) with
          | .error e => .error e
          | .ok nbu_bytes =>
            let null_bitmap_for_update := parse_bitmap nbu_bytes pre.number_of_columns
            let off6 := off5 + n_byte
            match rowColumnsLoop (buffer2.drop off6) 0
                table_info.column_types_string_for_human table_info.metadata_block_data_raw
                null_bitmap_for_update with
            | .error e => .error e
            | .ok (column_data_for_update_vec, _, _) =>
              .ok ⟨type_string_for_human, pre.table_id, pre.flags, pre.number_of_columns,
                pre.columns_used, pre.columns_used_for_update, pre.null_bitmap,
                column_data_vec, some null_bitmap_for_update,
                some column_data_for_update_vec⟩
        else
          .ok ⟨type_string_for_human, pre.table_id, pre.flags, pre.number_of_columns,
            pre.columns_used, pre.columns_used_for_update, pre.null_bitmap,
            column_data_vec, none, none⟩

/-- Model of `service.rs` `get_event_header`: read 19 bytes at `offset` and decode the
little-endian header fields.  A short read is a returned `io::Error`. -/
def get_event_header (file : List Nat) (offset : Nat) :
    Except RunError EventHeader :=
  if offset + 19 ≤ file.length then
    let b := (file.drop offset).take 19
    .ok ⟨leVal (b.take 4), leVal ((b.drop 4).take 1), leVal ((b.drop 5).take 4),
      leVal ((b.drop 9).take 4), leVal ((b.drop 13).take 4), leVal ((b.drop 17).take 2)⟩
  else .error (.ioError "failed to fill whole buffer")

/-- Model of `util.rs` `check_file_magic_number`: read the first 4 bytes (a short file
is a returned `io::Error`) and compare their hex rendering with
`"fe62696e"`, i.e. the bytes `FE 62 69 6E`. -/
def check_file_magic_number (file : List Nat) : Except RunError Bool :=
  if 4 ≤ file.length then .ok (decide (file.take 4 = [254, 98, 105, 110]))
  else .error (.ioError "failed to fill whole buffer")

/-- The event loop of `main.rs` (non-test branch), generic over the body
decoder `g` (which receives the file, the body offset, the header's
`event_length` and `type_code`, and the table registry, and returns a body
of type `β` plus the updated registry).  The loop reads a header, decodes
the body, emits the pair, then moves the cursor to `next_event_position`
and stops only when the cursor has reached the file length — the
end-of-file test happens after the body of the loop.  `fuel` bounds the
iteration count of the source's unbounded `loop`. -/
def runLoop {β : Type}
    (g : List Nat → Nat → Nat → Nat → List (Nat × EventBodyTypeCode19) →
      Except RunError (β × List (Nat × EventBodyTypeCode19)))
    (file : List Nat) (fuel : Nat) (offset : Nat)
    (table_structs : List (Nat × EventBodyTypeCode19))
    (acc : List (EventHeader × β)) :
    Except RunError (List (EventHeader × β)) :=
  match fuel with
  | 0 => .error .fuelOut
  | fuel + 1 =>
    match get_event_header file offset with
    | .error e => .error e
    | .ok header =>
      match g file (offset + 19) header.event_length header.type_code table_structs with
      | .error e => .error e
      | .ok (body, table_structs2) =>
        let acc2 := acc ++ [(header, body)]
        let offset2 := header.next_event_position
        if offset2 ≥ file.length then .ok acc2
        else runLoop g file fuel offset2 table_structs2 acc2

/-- Model of `main.rs` `main` (non-test branch): check the magic number (panicking when
it does not match), start the cursor at offset 4 with an empty registry, and
run the event loop. -/
def runMain {β : Type}
    (g : List Nat → Nat → Nat → Nat → List (Nat × EventBodyTypeCode19) →
      Except RunError (β × List (Nat × EventBodyTypeCode19)))
    (fuel : Nat) (file : List Nat) :
    Except RunError (List (EventHeader × β)) :=
  match check_file_magic_number file with
  | .error e => .error e
  | .ok is_binlog_file =>
    if is_binlog_file then runLoop g file fuel 4 [] []
    else .error (.panicked "this is not a binglog file")

/-- True exactly on the decoder's typed error (`MyError`); panics and i/o
errors are not typed decode errors. -/
def RunError.isTyped : RunError → Bool
  | .myError _ => true
  | _ => false

/-- Modelled from the spec's words for the DATETIME2 claim: subtract
`0x8000000000` from the big-endian u40 value, split into
`date_val = v >> 17` and `time_val = v mod 2^17`, take day = low 5 bits,
month = `(date_val >> 5) mod 13`, year = `(date_val >> 5) / 13`,
second = low 6 bits of `time_val`, minute = next 6 bits, hour = the
remainder, and render `YYYY-MM-DD HH:MM:SS`. -/
def datetime2SpecRender (v : Nat) : String :=
  let val := v - 549755813888
  let date_val := val / 131072
  let time_val := val % 131072
  let day := date_val % 32
  let month := date_val / 32 % 13
  let year := date_val / 32 / 13
  let second := time_val % 64
  let minute := time_val / 64 % 64
  let hour := time_val / 4096
  Nat.repr year ++ "-" ++ pad2 month ++ "-" ++ pad2 day ++ " " ++
    pad2 hour ++ ":" ++ pad2 minute ++ ":" ++ pad2 second

/-- A registry with one single-column (TINY) table under table id 42. -/
def c1Reg : List (Nat × EventBodyTypeCode19) :=
  [(42, ⟨42, 1, 0, "", 1, "t", 1, [1], ["MYSQL_TYPE_TINY"], 0, [], [], [], [false], []⟩)]

/-- A type-23 (INSERT) row-event body for `c1Reg`: table id 42, flags 0,
one column, columns-used byte, null bitmap byte, then the TINY value 7. -/
def c1Buf : List Nat := [42, 0, 0, 0, 0, 0, 0, 0, 1, 1, 0, 7]

/-- The decoded body of `c1Buf` against `c1Reg`. -/
def c1Body : EventBodyTypeCode23To25 :=
  ⟨"insert", 42, 0, 1, [true], none, [false], ["7"], none, none⟩

/-- A table whose single column is a `DECIMAL(5,2)` (NEWDECIMAL, metadata
precision 5, decimals 2). -/
def c10Ti : EventBodyTypeCode19 :=
  ⟨42, 1, 0, "", 1, "t", 1, [246], ["MYSQL_TYPE_NEWDECIMAL"], 2, [5, 2], [],
    [[5, 2]], [true], []⟩

/-- A table with two NEWDECIMAL columns whose metadata declares precision 0
and decimals 0, so each value occupies zero bytes. -/
def c10TiCancel : EventBodyTypeCode19 :=
  ⟨42, 1, 0, "", 1, "t", 2, [246, 246], ["MYSQL_TYPE_NEWDECIMAL", "MYSQL_TYPE_NEWDECIMAL"],
    4, [0, 0, 0, 0], [], [[0, 0], [0, 0]], [true, true], []⟩

/-- Decidable equality of results, for evaluating the decoder at concrete
inputs. -/
instance {e a : Type} [DecidableEq e] [DecidableEq a] : DecidableEq (Except e a) := by
  intro x y
  cases x <;> cases y
  case error.error u v =>
    exact if h : u = v then .isTrue (by rw [h]) else .isFalse (fun hc => h (by injection hc))
  case error.ok u v => exact .isFalse (fun hc => Except.noConfusion hc)
  case ok.error u v => exact .isFalse (fun hc => Except.noConfusion hc)
  case ok.ok u v =>
    exact if h : u = v then .isTrue (by rw [h]) else .isFalse (fun hc => h (by injection hc))

theorem slice_range_ok_mp {l : List Nat} {a b : Nat} {s : List Nat}
    (h : slice_range l a b = .ok s) :
    s = (l.drop a).take (b - a) ∧ a ≤ b ∧ b ≤ l.length := by
  unfold slice_range at h
  split at h
  · exact ⟨(Except.ok.injEq _ _ ▸ h).symm, by omega, by omega⟩
  · exact absurd h (by simp)

theorem slice_range_ok_length {l : List Nat} {a b : Nat} {s : List Nat}
    (h : slice_range l a b = .ok s) : s.length = b - a := by
  obtain ⟨hs, hab, hbl⟩ := slice_range_ok_mp h
  subst hs
  simp [List.length_take, List.length_drop]
  omega

theorem bitsOfBytes_length (l : List Nat) : (bitsOfBytes l).length = 8 * l.length := by
  induction l with
  | nil => rfl
  | cons b rest ih => simp [bitsOfBytes, byteBits, ih]; omega

theorem parse_bitmap_length {bytes : List Nat} {n : Nat} (h : n ≤ 8 * bytes.length) :
    (parse_bitmap bytes n).length = n := by
  simp [parse_bitmap, List.length_take, bitsOfBytes_length]
  omega

theorem byteBits_getD {b : Nat} {j : Nat} (hj : j < 8) :
    (byteBits b).getD j false = b.testBit j := by
  interval_cases j <;> rfl

theorem bitsOfBytes_getD {bytes : List Nat} {k j : Nat} (hj : j < 8)
    (hk : k < bytes.length) :
    (bitsOfBytes bytes).getD (8 * k + j) false = (bytes.getD k 0).testBit j := by
  induction bytes generalizing k with
  | nil => simp at hk
  | cons b rest ih =>
    match k with
    | 0 =>
      have hlen : j < (byteBits b).length := by simp [byteBits]; omega
      simp only [bitsOfBytes, Nat.mul_zero, Nat.zero_add, List.getD_cons_zero]
      rw [List.getD_append _ _ _ _ hlen]
      exact byteBits_getD hj
    | k + 1 =>
      have hlen : (byteBits b).length ≤ 8 * (k + 1) + j := by simp [byteBits]; omega
      simp only [bitsOfBytes]
      rw [List.getD_append_right _ _ _ _ hlen]
      have harith : 8 * (k + 1) + j - (byteBits b).length = 8 * k + j := by
        simp [byteBits]; omega
      rw [harith]
      have hk2 : k < rest.length := by simpa using hk
      simpa using ih hk2

theorem count_false_add_count_true (nb : List Bool) :
    nb.count false + nb.count true = nb.length := by
  induction nb with
  | nil => rfl
  | cons b rest ih =>
    cases b <;> simp [List.count_cons, ih] <;> omega

theorem xor_const_ne (x c : Nat) (hc : c ≠ 0) : x ^^^ c ≠ x := by
  intro he
  apply hc
  have h3 : x ^^^ (x ^^^ c) = x ^^^ x := congrArg (fun y => x ^^^ y) he
  simpa [← Nat.xor_assoc, Nat.xor_self] using h3

theorem rowColumnsLoop_count : ∀ (nb : List Bool) (ts : List String)
    (rs : List (List Nat)) (buf : List Nat) (off : Nat) (cd : List String)
    (o : Nat) (b2 : List Nat),
    rowColumnsLoop buf off ts rs nb = .ok (cd, o, b2) → cd.length = nb.count false := by
  intro nb
  induction nb with
  | nil =>
    intro ts rs buf off cd o b2 h
    rw [rowColumnsLoop] at h
    simp only [Except.ok.injEq, Prod.mk.injEq] at h
    simp [← h.1]
  | cons b nb2 ih =>
    intro ts rs buf off cd o b2 h
    match ts with
    | [] =>
      rw [rowColumnsLoop] at h
      exact absurd h (by simp)
    | t :: ts2 =>
      rw [rowColumnsLoop] at h
      cases b with
      | true =>
        simp only [if_true] at h
        have := ih ts2 _ _ _ _ _ _ h
        simp [List.count_cons, this]
      | false =>
        simp only [Bool.false_eq_true, if_false] at h
        split at h
        · exact absurd h (by simp)
        · split at h
          · exact absurd h (by simp)
          · rename_i s off2 buf2 hd l off3 buf3 hr
            simp only [Except.ok.injEq, Prod.mk.injEq] at h
            have := ih ts2 _ _ _ _ _ _ hr
            simp [← h.1, List.count_cons, this]

theorem decodeOne_preserves {t : String} {mraw : Option (List Nat)} {buf : List Nat}
    {off : Nat} {s : String} {o2 : Nat} {b2 : List Nat}
    (h : decodeOne t mraw buf off = .ok (s, o2, b2))
    (ht : t ≠ "MYSQL_TYPE_NEWDECIMAL") : b2 = buf := by
  rw [decodeOne.eq_def] at h
  split at h
  all_goals try exact absurd rfl ht
  all_goals simp only [] at h
  all_goals (repeat' split at h) <;> simp_all

theorem bin_to_decimal_effect {sub : List Nat} {p d : Nat} {s : String} {n : Nat}
    {sub2 : List Nat} (h : bin_to_decimal sub p d = .ok (s, n, sub2)) :
    sub2 = flip_top (if sub.getD 0 0 &&& 128 = 0 then invert_first n sub else sub) ∧
    sub2.getD 0 0 ≠ sub.getD 0 0 ∧ sub ≠ [] := by
  match sub with
  | [] => rw [bin_to_decimal] at h; exact absurd h (by simp)
  | s0 :: rest =>
    rw [bin_to_decimal] at h
    simp only [] at h
    split_ifs at h with h1 h2 hsign
    all_goals simp only [Except.ok.injEq, Prod.mk.injEq] at h
    all_goals obtain ⟨hs, hn, hsub2⟩ := h
    all_goals subst hn
    all_goals subst hsub2
    all_goals refine ⟨by simp [hsign], ?_, by simp⟩
    all_goals simp only [List.getD_cons_zero]
    all_goals first
      | (simp only [flip_top]
         exact xor_const_ne s0 128 (by decide))
      | (match hq : parse_quantity_of_bytes_for_decimal_part (p - d) +
            parse_quantity_of_bytes_for_decimal_part d with
         | 0 =>
           simp only [invert_first, flip_top, List.getD_cons_zero]
           exact xor_const_ne s0 128 (by decide)
         | k + 1 =>
           simp only [invert_first, flip_top, List.getD_cons_zero, Nat.xor_assoc]
           exact xor_const_ne s0 (255 ^^^ 128) (by decide))

theorem decodeOne_newdecimal {mraw : Option (List Nat)} {buf : List Nat} {off : Nat}
    {s : String} {o2 : Nat} {b2 : List Nat}
    (h : decodeOne "MYSQL_TYPE_NEWDECIMAL" mraw buf off = .ok (s, o2, b2)) :
    ∃ p d mrest skip sub2, mraw = some (p :: d :: mrest) ∧ off ≤ buf.length ∧
      bin_to_decimal (buf.drop off) p d = .ok (s, skip, sub2) ∧ o2 = off + skip ∧
      b2 = buf.take off ++ sub2 := by
  rw [decodeOne.eq_def] at h
  simp only [String.reduceEq, reduceIte] at h
  match mraw with
  | none => exact absurd h (by simp)
  | some meta =>
    match meta with
    | [] => exact absurd h (by simp)
    | [p] => exact absurd h (by simp)
    | p :: d :: mrest =>
      simp only [] at h
      split at h
      case isFalse hle => exact absurd h (by simp)
      case isTrue hle =>
        split at h
        · exact absurd h (by simp)
        · rename_i v sv skipv sub2v heq
          simp only [Except.ok.injEq, Prod.mk.injEq] at h
          exact ⟨p, d, mrest, skipv, sub2v, rfl, hle, by rw [h.1] at heq; exact heq,
            h.2.1.symm, h.2.2.symm⟩

theorem getD_drop_zero (l : List Nat) (n : Nat) : (l.drop n).getD 0 0 = l.getD n 0 := by
  induction l generalizing n with
  | nil => simp
  | cons x xs ih =>
    match n with
    | 0 => rfl
    | n + 1 => exact ih n

theorem rowColumnsLoop_pure : ∀ (nb : List Bool) (ts : List String) (rs : List (List Nat))
    (buf : List Nat) (off : Nat) (cd : List String) (o : Nat) (b2 : List Nat),
    rowColumnsLoop buf off ts rs nb = .ok (cd, o, b2) →
    (∀ i, i < nb.length → ts.getD i "" = "MYSQL_TYPE_NEWDECIMAL" → nb.getD i true = true) →
    b2 = buf := by
  intro nb
  induction nb with
  | nil =>
    intro ts rs buf off cd o b2 h hp
    rw [rowColumnsLoop] at h
    simp only [Except.ok.injEq, Prod.mk.injEq] at h
    exact h.2.2.symm
  | cons b nb2 ih =>
    intro ts rs buf off cd o b2 h hp
    match ts with
    | [] => rw [rowColumnsLoop] at h; exact absurd h (by simp)
    | t :: ts2 =>
      rw [rowColumnsLoop] at h
      have hp2 : ∀ i, i < nb2.length → ts2.getD i "" = "MYSQL_TYPE_NEWDECIMAL" →
          nb2.getD i true = true := by
        intro i hi hti
        have := hp (i + 1) (by simp only [List.length_cons]; omega) (by simpa using hti)
        simpa using this
      cases b with
      | true =>
        simp only [if_true] at h
        exact ih ts2 _ _ _ _ _ _ h hp2
      | false =>
        have htne : t ≠ "MYSQL_TYPE_NEWDECIMAL" := by
          intro hteq
          have := hp 0 (by simp) (by simpa using hteq)
          simp at this
        simp only [Bool.false_eq_true, if_false] at h
        split at h
        · exact absurd h (by simp)
        · split at h
          · exact absurd h (by simp)
          · rename_i x1 sv off2 buf2 hd x2 lv off3 buf3 hr
            simp only [Except.ok.injEq, Prod.mk.injEq] at h
            have hb2 : buf2 = buf := decodeOne_preserves hd htne
            have hb3 := ih ts2 _ _ _ _ _ _ hr hp2
            rw [← h.2.2, hb3, hb2]

theorem rowColumnsLoop_single : ∀ (nb : List Bool) (i : Nat) (ts : List String)
    (rs : List (List Nat)) (buf : List Nat) (off : Nat) (cd : List String) (o : Nat)
    (b2 : List Nat),
    rowColumnsLoop buf off ts rs nb = .ok (cd, o, b2) →
    i < nb.length → nb.getD i true = false → ts.getD i "" = "MYSQL_TYPE_NEWDECIMAL" →
    (∀ j, j < nb.length → j ≠ i → ts.getD j "" = "MYSQL_TYPE_NEWDECIMAL" →
      nb.getD j true = true) →
    b2 ≠ buf := by
  intro nb
  induction nb with
  | nil => intro i ts rs buf off cd o b2 h hi; simp at hi
  | cons b nb2 ih =>
    intro i ts rs buf off cd o b2 h hi hnull ht hothers
    match ts with
    | [] => rw [rowColumnsLoop] at h; exact absurd h (by simp)
    | t :: ts2 =>
      rw [rowColumnsLoop] at h
      match i with
      | 0 =>
        have hb : b = false := by simpa using hnull
        have hteq : t = "MYSQL_TYPE_NEWDECIMAL" := by simpa using ht
        subst hb
        subst hteq
        simp only [Bool.false_eq_true, if_false] at h
        split at h
        · exact absurd h (by simp)
        · split at h
          · exact absurd h (by simp)
          · rename_i x1 sv off2 buf2 hd x2 lv off3 buf3 hr
            simp only [Except.ok.injEq, Prod.mk.injEq] at h
            obtain ⟨p, d, mrest, skip, sub2, hmr, hle, hbin, ho2, hbuf2⟩ :=
              decodeOne_newdecimal hd
            obtain ⟨_, hhead, hne⟩ := bin_to_decimal_effect hbin
            have hp2 : ∀ j, j < nb2.length → ts2.getD j "" = "MYSQL_TYPE_NEWDECIMAL" →
                nb2.getD j true = true := by
              intro j hj htj
              have := hothers (j + 1) (by simp only [List.length_cons]; omega)
                (by omega) (by simpa using htj)
              simpa using this
            have hb3 : buf3 = buf2 := rowColumnsLoop_pure nb2 ts2 _ _ _ _ _ _ hr hp2
            intro hcontra
            have hb2buf : b2 = List.take off buf ++ sub2 := by
              rw [← h.2.2, hb3, hbuf2]
            have hlen : (List.take off buf).length = off := by
              simp [List.length_take]
              omega
            have hleft : b2.getD off 0 = sub2.getD 0 0 := by
              rw [hb2buf]
              rw [List.getD_append_right _ _ _ _ (by omega : (List.take off buf).length ≤ off)]
              have hz : off - (List.take off buf).length = 0 := by rw [hlen]; omega
              rw [hz]
            have hright : buf.getD off 0 = (List.drop off buf).getD 0 0 :=
              (getD_drop_zero buf off).symm
            rw [hcontra] at hleft
            exact hhead (hleft.symm.trans hright)
      | i2 + 1 =>
        have hi2 : i2 < nb2.length := by
          simp only [List.length_cons] at hi
          omega
        have hnull2 : nb2.getD i2 true = false := by simpa using hnull
        have ht2 : ts2.getD i2 "" = "MYSQL_TYPE_NEWDECIMAL" := by simpa using ht
        have hot2 : ∀ j, j < nb2.length → j ≠ i2 → ts2.getD j "" = "MYSQL_TYPE_NEWDECIMAL" →
            nb2.getD j true = true := by
          intro j hj hji htj
          have := hothers (j + 1) (by simp only [List.length_cons]; omega) (by omega)
            (by simpa using htj)
          simpa using this
        cases b with
        | true =>
          simp only [if_true] at h
          exact ih i2 ts2 _ _ _ _ _ _ h hi2 hnull2 ht2 hot2
        | false =>
          have htne : t ≠ "MYSQL_TYPE_NEWDECIMAL" := by
            intro hteq
            have := hothers 0 (by simp) (by omega) (by simpa using hteq)
            simp at this
          simp only [Bool.false_eq_true, if_false] at h
          split at h
          · exact absurd h (by simp)
          · split at h
            · exact absurd h (by simp)
            · rename_i x1 sv off2 buf2 hd x2 lv off3 buf3 hr
              simp only [Except.ok.injEq, Prod.mk.injEq] at h
              have hbeq : buf2 = buf := decodeOne_preserves hd htne
              rw [hbeq] at hr
              have hih := ih i2 ts2 _ _ _ _ _ _ hr hi2 hnull2 ht2 hot2
              rw [← h.2.2]
              exact hih

theorem rowColumnsLoop_eq_paired : ∀ (nb : List Bool) (ts : List String)
    (rs : List (List Nat)) (buf : List Nat) (off : Nat),
    rowColumnsLoop buf off ts rs nb = decodeColumnsPaired buf off (pairMeta ts rs) nb := by
  intro nb
  induction nb with
  | nil => intro ts rs buf off; cases ts <;> rfl
  | cons b nb2 ih =>
    intro ts rs buf off
    match ts with
    | [] => rfl
    | t :: ts2 =>
      rw [rowColumnsLoop, pairMeta, decodeColumnsPaired]
      cases b with
      | true => simpa using ih ts2 (consultMeta t rs).2 buf off
      | false =>
        simp only [Bool.false_eq_true, if_false]
        cases hd : decodeOne t (consultMeta t rs).1 buf off with
        | error e => rfl
        | ok v =>
          obtain ⟨s, off2, buf2⟩ := v
          simp only []
          rw [ih ts2 (consultMeta t rs).2 buf2 off2]

theorem parseRowPrefix_nb_length {buffer : List Nat} {tc : Nat} {pre : RowPrefix}
    (h : parseRowPrefix buffer tc = .ok pre) :
    pre.null_bitmap.length = pre.number_of_columns := by
  rw [parseRowPrefix] at h
  cases h1 : slice_range buffer 0 6 with
  | error e => rw [h1] at h; exact absurd h (by simp)
  | ok tid_vec =>
    rw [h1] at h
    simp only [] at h
    cases h2 : slice_range buffer 6 8 with
    | error e => rw [h2] at h; exact absurd h (by simp)
    | ok flag_bytes =>
      rw [h2] at h
      simp only [] at h
      cases h3 : parse_lenenc (buffer.drop 8) with
      | error e => rw [h3] at h; exact absurd h (by simp)
      | ok v =>
        obtain ⟨n, skip⟩ := v
        rw [h3] at h
        simp only [] at h
        cases h4 : slice_range buffer (8 + skip) (8 + skip + (n + 7) / 8) with
        | error e => rw [h4] at h; exact absurd h (by simp)
        | ok cu_bytes =>
          rw [h4] at h
          simp only [] at h
          by_cases htc : tc = 24
          · rw [if_pos htc] at h
            cases h5 : slice_range buffer (8 + skip + (n + 7) / 8)
                (8 + skip + (n + 7) / 8 + (n + 7) / 8) with
            | error e => rw [h5] at h; exact absurd h (by simp)
            | ok cufu_bytes =>
              rw [h5] at h
              simp only [] at h
              cases h6 : slice_range buffer (8 + skip + (n + 7) / 8 + (n + 7) / 8)
                  (8 + skip + (n + 7) / 8 + (n + 7) / 8 + (n + 7) / 8) with
              | error e => rw [h6] at h; exact absurd h (by simp)
              | ok nb_bytes =>
                rw [h6] at h
                simp only [Except.ok.injEq] at h
                rw [← h]
                simp only []
                have hlen := slice_range_ok_length h6
                refine parse_bitmap_length ?_
                rw [hlen]
                omega
          · rw [if_neg htc] at h
            cases h6 : slice_range buffer (8 + skip + (n + 7) / 8)
                (8 + skip + (n + 7) / 8 + (n + 7) / 8) with
            | error e => rw [h6] at h; exact absurd h (by simp)
            | ok nb_bytes =>
              rw [h6] at h
              simp only [Except.ok.injEq] at h
              rw [← h]
              simp only []
              have hlen := slice_range_ok_length h6
              refine parse_bitmap_length ?_
              rw [hlen]
              omega

theorem getD_take_lt {l : List Bool} : ∀ {n i : Nat}, i < n →
    (l.take n).getD i false = l.getD i false := by
  induction l with
  | nil => intro n i h; simp
  | cons x xs ih =>
    intro n i h
    match n, i with
    | n + 1, 0 => rfl
    | n + 1, i + 1 => simpa using ih (by omega)

/-- C8: `parse_bitmap` on `n` bytes with truncation count `C ≤ 8·n` yields
exactly `C` flags, flag `8·k+j` being bit `j` (LSB-first) of byte `k`; in
particular a row-event bitmap of `⌈N/8⌉` bytes truncated to `N` decodes to
exactly `N` flags. -/
theorem c8_parse_bitmap_correct (buf : List Nat) (C k j : Nat) (bytes : List Nat)
    (N : Nat) (hC : C ≤ 8 * buf.length) (hj : j < 8) (hkj : 8 * k + j < C)
    (hbytes : bytes.length = (N + 7) / 8) :
    (parse_bitmap buf C).length = C ∧
    (parse_bitmap buf C).getD (8 * k + j) false = (buf.getD k 0).testBit j ∧
    (parse_bitmap bytes N).length = N := by
  refine ⟨parse_bitmap_length hC, ?_, parse_bitmap_length (by rw [hbytes]; omega)⟩
  have hk : k < buf.length := by omega
  rw [parse_bitmap, getD_take_lt hkj, bitsOfBytes_getD hj hk]

/-- C8 witness: byte `0x05` truncated to 3 flags has flag 2 set (bit 2 of 5),
and a single byte truncated to 8 yields 8 flags. -/
theorem c8_parse_bitmap_correct_witness :
    (parse_bitmap [5] 3).length = 3 ∧
    (parse_bitmap [5] 3).getD (8 * 0 + 2) false = Nat.testBit ([5].getD 0 0) 2 ∧
    (parse_bitmap [255] 8).length = 8 :=
  c8_parse_bitmap_correct [5] 3 0 2 [255] 8 (by decide) (by decide) (by decide) (by decide)

/-- C4 (amended): `parse_lenenc` follows the 1/3/4/9-byte forms and returns
the typed decode error exactly for first bytes 251 and 255, PROVIDED the
buffer holds the bytes the announced form requires; a buffer shorter than
the announced form does not return at all but panics on an out-of-range
slice (see the counterexample), which is the one correction to the claim.
The four concrete vectors of the claim are included. -/
theorem c4_parse_lenenc_spec (b : Nat) (rest : List Nat) :
    (b < 251 → parse_lenenc (b :: rest) = .ok (b, 1)) ∧
    (b = 252 → 2 ≤ rest.length → parse_lenenc (b :: rest) = .ok (leVal (rest.take 2), 3)) ∧
    (b = 253 → 3 ≤ rest.length → parse_lenenc (b :: rest) = .ok (leVal (rest.take 3), 4)) ∧
    (b = 254 → 8 ≤ rest.length → parse_lenenc (b :: rest) = .ok (leVal (rest.take 8), 9)) ∧
    (b = 251 ∨ b = 255 → parse_lenenc (b :: rest) = .error (.myError "lenenc parse error")) ∧
    (parse_lenenc [250] = .ok (250, 1) ∧ parse_lenenc [252, 1, 1] = .ok (257, 3) ∧
      parse_lenenc [253, 0, 0, 1] = .ok (65536, 4) ∧
      parse_lenenc [254, 0, 0, 0, 0, 1, 0, 0, 0] = .ok (4294967296, 9)) := by
  refine ⟨?_, ?_, ?_, ?_, ?_, ⟨rfl, rfl, rfl, rfl⟩⟩
  · intro h
    simp only [parse_lenenc.eq_def]
    rw [if_pos h]
  · intro hb hlen
    subst hb
    match rest, hlen with
    | x :: y :: r, _ => simp [parse_lenenc.eq_def, leVal]
  · intro hb hlen
    subst hb
    match rest, hlen with
    | x :: y :: z :: r, _ => simp [parse_lenenc.eq_def, leVal]
  · intro hb hlen
    subst hb
    match rest, hlen with
    | x1 :: x2 :: x3 :: x4 :: x5 :: x6 :: x7 :: x8 :: r, _ =>
      simp [parse_lenenc.eq_def, leVal]
  · intro hb
    rcases hb with hb | hb <;> subst hb <;> simp [parse_lenenc.eq_def]

/-- C4 witness: the 252 form at buffer 0xFC 0x01 0x01 consumes 3 bytes and
yields the little-endian value of the next two bytes. -/
theorem c4_parse_lenenc_spec_witness :
    parse_lenenc (252 :: [1, 1]) = .ok (leVal ([1, 1].take 2), 3) :=
  (c4_parse_lenenc_spec 252 [1, 1]).2.1 rfl (by decide)

/-- C4 counterexample: on the 1-byte buffer 0xFC the first byte (252, not in
the error set 251/255) announces a 2-byte payload that is absent; the
decoder neither returns the announced value nor the typed decode error, it
panics on an out-of-range slice.  This refutes the claim's "for every input
buffer ... returns a decode error exactly when b is 251 or 255". -/
theorem c4_parse_lenenc_counterexample :
    parse_lenenc [252] = .error (.panicked "slice index out of range") ∧
    RunError.isTyped (.panicked "slice index out of range") = false := by
  exact ⟨rfl, rfl⟩

/-- C5: the code evaluated at the failing input.  The NEWDECIMAL encodings of
`-123.45` (bytes 7F 84 D2) and `+123.45` (bytes 80 7B 2D) under
`DECIMAL(5,2)` both decode to the very same string "123.45": the sign is
stripped, never rendered, so decoding does not preserve the sign
distinction the claim requires.  (The spec itself records in its design
notes that the reference behavior drops the leading minus and calls it a
bug, so the claim is right about the intent and the code is wrong.) -/
theorem c5_newdecimal_sign_stripped :
    bin_to_decimal [127, 132, 210] 5 2 = .ok ("123.45", 3, [0, 123, 45]) ∧
    bin_to_decimal [128, 123, 45] 5 2 = .ok ("123.45", 3, [0, 123, 45]) := by
  exact ⟨rfl, rfl⟩

/-- C9 (amended): for a VARCHAR (type 15) column with a 2-byte metadata entry
`[m0, m1]`, the reported maximum string length is the LITTLE-endian value
`m0 + 256·m1` of the entry: the source clones the 2 bytes, reverses them,
and then reads them big-endian, which is exactly the little-endian reading
of the original order.  (The claim's "big-endian" is the corrected part;
see the counterexample.) -/
theorem c9_varchar_metadata_little_endian (mbm : List (Nat × Nat))
    (ftm : List (Nat × String)) (block : List Nat) (off m0 m1 : Nat)
    (hmbm : List.lookup 15 mbm = some 2)
    (hftm : List.lookup 15 ftm = some "MYSQL_TYPE_VARCHAR")
    (hslice : slice_range block off (off + 2) = .ok [m0, m1]) :
    parse_metadata_block mbm ftm block off 15 =
      .ok ("field type id is: 15, field type name is: MYSQL_TYPE_VARCHAR, infomation is [" ++
        ("the maximum length of the string is " ++ Nat.repr (m0 + 256 * m1) ++ " byte") ++ "]",
        [m0, m1], 2) := by
  rw [parse_metadata_block]
  rw [hmbm]
  simp only [Option.getD_some]
  rw [hslice]
  simp only [hftm]
  norm_num
  have harith : m1 * 256 + m0 = m0 + 256 * m1 := by ring
  rw [harith]
  have hpre : "field type id is: " ++ Nat.repr 15 ++ ", field type name is: " ++
      "MYSQL_TYPE_VARCHAR" ++ ", infomation is [" =
      "field type id is: 15, field type name is: MYSQL_TYPE_VARCHAR, infomation is [" := rfl
  rw [hpre]

/-- C9 witness: metadata bytes 0x10 0x27 under the standard catalogue entries
report maximum length 16 + 256·39 = 10000. -/
theorem c9_varchar_metadata_little_endian_witness :
    parse_metadata_block [(15, 2)] [(15, "MYSQL_TYPE_VARCHAR")] [16, 39] 0 15 =
      .ok ("field type id is: 15, field type name is: MYSQL_TYPE_VARCHAR, infomation is [" ++
        ("the maximum length of the string is " ++ Nat.repr (16 + 256 * 39) ++ " byte") ++ "]",
        [16, 39], 2) :=
  c9_varchar_metadata_little_endian [(15, 2)] [(15, "MYSQL_TYPE_VARCHAR")] [16, 39] 0 16 39
    rfl rfl rfl

/-- C9 counterexample: for metadata bytes 0x10 0x27 the description reports
10000 (little-endian), not the big-endian value 16·256 + 39 = 4135 the
claim predicts, so "interpreted as a big-endian u16" is false. -/
theorem c9_varchar_metadata_counterexample :
    parse_metadata_block [(15, 2)] [(15, "MYSQL_TYPE_VARCHAR")] [16, 39] 0 15 =
      .ok ("field type id is: 15, field type name is: MYSQL_TYPE_VARCHAR, infomation is [the maximum length of the string is 10000 byte]",
        [16, 39], 2) ∧
    16 * 256 + 39 = 4135 ∧
    ("field type id is: 15, field type name is: MYSQL_TYPE_VARCHAR, infomation is [the maximum length of the string is 10000 byte]" ≠
      "field type id is: 15, field type name is: MYSQL_TYPE_VARCHAR, infomation is [the maximum length of the string is 4135 byte]") := by
  exact ⟨rfl, rfl, by decide⟩

/-- C3 (amended): decoding a row event whose table id is absent from the
registry fails, but through the `unwrap` panic of
`table_structs.get(&table_id).unwrap()` — a process abort — rather than by
returning the decoder's typed decode error; the iterator therefore never
gets an error value to surface.  Stated for every buffer whose pre-lookup
prefix parses. -/
theorem c3_missing_table_map_panics (buffer : List Nat) (type_code : Nat)
    (table_structs : List (Nat × EventBodyTypeCode19)) (pre : RowPrefix)
    (hpre : parseRowPrefix buffer type_code = .ok pre)
    (hmiss : List.lookup pre.table_id table_structs = none) :
    deal_type_code_23_to_25 buffer type_code table_structs =
      .error (.panicked "Option unwrap on a None value") := by
  rw [deal_type_code_23_to_25, hpre]
  simp only []
  rw [hmiss]

/-- C3 witness: a minimal INSERT body (table id 42, one column, empty
registry) panics at the registry lookup. -/
theorem c3_missing_table_map_panics_witness :
    deal_type_code_23_to_25 [42, 0, 0, 0, 0, 0, 0, 0, 1, 1, 0] 23 [] =
      .error (.panicked "Option unwrap on a None value") :=
  c3_missing_table_map_panics [42, 0, 0, 0, 0, 0, 0, 0, 1, 1, 0] 23 []
    ⟨42, 0, 1, [true], none, [false], 11⟩ rfl rfl

/-- C3 counterexample: the failure on a missing registry entry is the
`panicked` outcome, which is not the typed decode error the claim names
(`RunError.isTyped` is false on it), refuting "fails by returning the
decoder's single, uniformly typed decode error". -/
theorem c3_missing_table_map_counterexample :
    deal_type_code_23_to_25 [42, 0, 0, 0, 0, 0, 0, 0, 1, 1, 0] 23 [] =
      .error (.panicked "Option unwrap on a None value") ∧
    RunError.isTyped (.panicked "Option unwrap on a None value") = false := ⟨rfl, rfl⟩

/-- C6 (amended): on a file holding exactly the 4 magic bytes FE 62 69 6E the
decoder emits no events but does NOT terminate cleanly: the loop body reads
a 19-byte header at offset 4 before it ever compares the cursor with the
file length, so the run fails with the truncated-read i/o error — for every
body decoder `g` and every positive fuel bound. -/
theorem c6_magic_only_file_errors {β : Type}
    (g : List Nat → Nat → Nat → Nat → List (Nat × EventBodyTypeCode19) →
      Except RunError (β × List (Nat × EventBodyTypeCode19))) (fuel : Nat) :
    runMain g (fuel + 1) [254, 98, 105, 110] =
      .error (.ioError "failed to fill whole buffer") := rfl

/-- C6 counterexample: even with a body decoder that always succeeds, the
magic-only file produces an error, not the clean no-event termination
`.ok []` the claim asserts. -/
theorem c6_magic_only_file_counterexample :
    runMain (fun _ _ _ _ st => .ok ((), st)) 1 [254, 98, 105, 110] =
      .error (.ioError "failed to fill whole buffer") ∧
    (Except.error (RunError.ioError "failed to fill whole buffer") ≠
      (.ok [] : Except RunError (List (EventHeader × Unit)))) := by
  exact ⟨rfl, by decide⟩

/-- C10 (amended): the row-event column decoder is not pure in its buffer.
(1) Every successful `bin_to_decimal` call returns the buffer with the
value's bytes inverted when the sign bit says negative and the top bit of
the value's first byte flipped.  (2) When no column is a non-null
NEWDECIMAL the buffer comes back unchanged.  (3) When EXACTLY ONE column is
a non-null NEWDECIMAL the returned buffer differs from the input.  The
claim's stronger "for every body containing a non-null NEWDECIMAL column"
fails: two zero-width (precision = decimals = 0) decimal values decoded at
the same position flip the same top bit twice and restore the buffer (see
the counterexample), which forces the exactly-one weakening. -/
theorem c10_newdecimal_buffer_mutation :
    (∀ (sub : List Nat) (p d : Nat) (s : String) (n : Nat) (sub2 : List Nat),
      bin_to_decimal sub p d = .ok (s, n, sub2) →
      sub2 = flip_top (if sub.getD 0 0 &&& 128 = 0 then invert_first n sub else sub)) ∧
    (∀ (buffer : List Nat) (ti : EventBodyTypeCode19) (nb : List Bool)
      (cd : List String) (o : Nat) (b2 : List Nat),
      parse_column_data_for_row_event buffer ti nb = .ok (cd, o, b2) →
      (∀ i, i < nb.length → ti.column_types_string_for_human.getD i "" =
        "MYSQL_TYPE_NEWDECIMAL" → nb.getD i true = true) →
      b2 = buffer) ∧
    (∀ (buffer : List Nat) (ti : EventBodyTypeCode19) (nb : List Bool) (i : Nat)
      (cd : List String) (o : Nat) (b2 : List Nat),
      parse_column_data_for_row_event buffer ti nb = .ok (cd, o, b2) →
      i < nb.length → nb.getD i true = false →
      ti.column_types_string_for_human.getD i "" = "MYSQL_TYPE_NEWDECIMAL" →
      (∀ j, j < nb.length → j ≠ i → ti.column_types_string_for_human.getD j "" =
        "MYSQL_TYPE_NEWDECIMAL" → nb.getD j true = true) →
      b2 ≠ buffer) := by
  refine ⟨?_, ?_, ?_⟩
  · intro sub p d s n sub2 h
    exact (bin_to_decimal_effect h).1
  · intro buffer ti nb cd o b2 h hp
    exact rowColumnsLoop_pure nb _ _ _ _ _ _ _ h hp
  · intro buffer ti nb i cd o b2 h hi hn ht ho
    exact rowColumnsLoop_single nb i _ _ _ _ _ _ _ h hi hn ht ho

/-- C10 witness: decoding the single non-null `DECIMAL(5,2)` value
80 7B 2D returns the buffer 00 7B 2D, different from the input (top bit of
the first byte flipped). -/
theorem c10_newdecimal_buffer_mutation_witness :
    ([0, 123, 45] : List Nat) ≠ [128, 123, 45] :=
  c10_newdecimal_buffer_mutation.2.2 [128, 123, 45] c10Ti [false] 0 ["123.45"] 3
    [0, 123, 45] rfl (by decide) (by decide) (by decide)
    (by intro j hj hji htj; simp only [List.length_cons, List.length_nil] at hj; omega)

/-- C10 counterexample: against `c10TiCancel` (two NEWDECIMAL columns of
precision 0 and decimals 0, both non-null) the buffer 0x85 comes back
EQUAL to the input — the first zero-width value flips the top bit of the
byte at its position and consumes nothing, the second flips it back — so
"for every row-event body containing a non-null NEWDECIMAL column the
buffer is mutated in place" is false as stated. -/
theorem c10_newdecimal_buffer_mutation_counterexample :
    parse_column_data_for_row_event [133] c10TiCancel [false, false] =
      .ok ([".", "."], 0, [133]) := rfl

/-- C2: during row-event column decoding the raw-metadata iterator advances
exactly for the metadata-dependent type names and for no others — the
advancement does not look at the null bitmap at all — and consequently the
whole decode equals the decode over the `(type, metadata)` pairing
`pairMeta`, which is computed from the column-type vector and the raw
metadata list alone, for EVERY null bitmap. -/
theorem c2_metadata_iterator_lockstep :
    (∀ (t : String) (rs : List (List Nat)),
      (consultMeta t rs).2 =
        if should_be_decode_from_table_event_data_type.contains t then rs.tail else rs) ∧
    (∀ (buffer : List Nat) (ti : EventBodyTypeCode19) (nb : List Bool),
      parse_column_data_for_row_event buffer ti nb =
        decodeColumnsPaired buffer 0
          (pairMeta ti.column_types_string_for_human ti.metadata_block_data_raw) nb) := by
  constructor
  · intro t rs
    rw [consultMeta]
    by_cases hc : t ∈ should_be_decode_from_table_event_data_type <;> simp [hc]
  · intro buffer ti nb
    exact rowColumnsLoop_eq_paired nb _ _ _ _

/-- C7: a 5-byte DATETIME2 payload (offset bit set) decodes to exactly the
rendering prescribed by the claim's formulas (`datetime2SpecRender`), and in
particular the payload 99 B3 9E DB 5E, which encodes 2024-06-15 13:45:30,
decodes to exactly that string. -/
theorem c7_datetime2_decode :
    (∀ (b0 b1 b2 b3 b4 : Nat) (mraw : Option (List Nat)),
      549755813888 ≤ beVal [b0, b1, b2, b3, b4] →
      decodeOne "MYSQL_TYPE_DATETIME2" mraw [b0, b1, b2, b3, b4] 0 =
        .ok (datetime2SpecRender (beVal [b0, b1, b2, b3, b4]), 5, [b0, b1, b2, b3, b4])) ∧
    decodeOne "MYSQL_TYPE_DATETIME2" (some []) [153, 179, 158, 219, 94] 0 =
      .ok ("2024-06-15 13:45:30", 5, [153, 179, 158, 219, 94]) := by
  constructor
  · intro b0 b1 b2 b3 b4 mraw h
    rw [decodeOne.eq_def]
    simp only [String.reduceEq, reduceIte]
    rw [show slice_range [b0, b1, b2, b3, b4] 0 (0 + 5) = .ok [b0, b1, b2, b3, b4] by
      rw [slice_range]; norm_num]
    simp only []
    rw [if_neg (by omega)]
    rw [datetime2SpecRender]
    simp only [Nat.shiftRight_eq_div_pow]
    norm_num
    have hmod : (beVal [b0, b1, b2, b3, b4] - 549755813888) % 131072 / 4096 % 4096 =
        (beVal [b0, b1, b2, b3, b4] - 549755813888) % 131072 / 4096 :=
      Nat.mod_eq_of_lt (by omega)
    rw [hmod]
  · rfl

/-- C7 witness: the concrete payload instantiates the general formula with
the offset-bit hypothesis discharged by computation. -/
theorem c7_datetime2_decode_witness :
    decodeOne "MYSQL_TYPE_DATETIME2" (some []) [153, 179, 158, 219, 94] 0 =
      .ok (datetime2SpecRender (beVal [153, 179, 158, 219, 94]), 5,
        [153, 179, 158, 219, 94]) :=
  c7_datetime2_decode.1 153 179 158 219 94 (some []) (by decide)

/-- C1: a row event that decodes successfully has exactly
`N − popcount(null_bitmap)` decoded column strings, where `N` is the
event's column count (which is also the length of each of its bitmaps,
decoded from `⌈N/8⌉` bytes and truncated to `N`); for an UPDATE (24) the
after-image values satisfy the same count against the after-image null
bitmap.  Stated additively (`values + popcount = N`) to avoid truncated
subtraction. -/
theorem c1_row_event_null_consistency (buffer : List Nat) (type_code : Nat)
    (table_structs : List (Nat × EventBodyTypeCode19)) (body : EventBodyTypeCode23To25)
    (h : deal_type_code_23_to_25 buffer type_code table_structs = .ok body) :
    body.column_data.length + body.null_bitmap.count true = body.number_of_columns ∧
    (∀ nbu cdu, body.null_bitmap_for_update = some nbu →
      body.column_data_for_update = some cdu →
      cdu.length + nbu.count true = body.number_of_columns) := by
  rw [deal_type_code_23_to_25] at h
  cases hpre : parseRowPrefix buffer type_code with
  | error e => rw [hpre] at h; exact absurd h (by simp)
  | ok pre =>
    rw [hpre] at h
    simp only [] at h
    cases hlook : List.lookup pre.table_id table_structs with
    | none => rw [hlook] at h; exact absurd h (by simp)
    | some ti =>
      rw [hlook] at h
      simp only [] at h
      cases hloop : rowColumnsLoop (buffer.drop pre.offset) 0
          ti.column_types_string_for_human ti.metadata_block_data_raw pre.null_bitmap with
      | error e => rw [hloop] at h; exact absurd h (by simp)
      | ok v =>
        obtain ⟨cd, skip, sub2⟩ := v
        rw [hloop] at h
        simp only [] at h
        have hnb := parseRowPrefix_nb_length hpre
        have hcount := rowColumnsLoop_count pre.null_bitmap _ _ _ _ _ _ _ hloop
        have hfb := count_false_add_count_true pre.null_bitmap
        by_cases htc : type_code = 24
        · rw [if_pos htc] at h
          cases hs2 : slice_range (buffer.take pre.offset ++ sub2) (pre.offset + skip)
              (pre.offset + skip + (pre.number_of_columns + 7) / 8) with
          | error e => rw [hs2] at h; exact absurd h (by simp)
          | ok nbu_bytes =>
            rw [hs2] at h
            simp only [] at h
            cases hloop2 : rowColumnsLoop ((buffer.take pre.offset ++ sub2).drop
                (pre.offset + skip + (pre.number_of_columns + 7) / 8)) 0
                ti.column_types_string_for_human ti.metadata_block_data_raw
                (parse_bitmap nbu_bytes pre.number_of_columns) with
            | error e => rw [hloop2] at h; exact absurd h (by simp)
            | ok w =>
              obtain ⟨cdu, skip2, sub3⟩ := w
              rw [hloop2] at h
              simp only [Except.ok.injEq] at h
              rw [← h]
              have hulen : nbu_bytes.length = (pre.number_of_columns + 7) / 8 := by
                have := slice_range_ok_length hs2
                omega
              have hub : (parse_bitmap nbu_bytes pre.number_of_columns).length =
                  pre.number_of_columns :=
                parse_bitmap_length (by rw [hulen]; omega)
              have hucount := rowColumnsLoop_count
                (parse_bitmap nbu_bytes pre.number_of_columns) _ _ _ _ _ _ _ hloop2
              have hufb := count_false_add_count_true
                (parse_bitmap nbu_bytes pre.number_of_columns)
              constructor
              · simp only []
                omega
              · intro nbu cdu2 hnbu hcdu
                simp only [Option.some.injEq] at hnbu hcdu
                rw [← hnbu, ← hcdu]
                simp only []
                omega
        · rw [if_neg htc] at h
          simp only [Except.ok.injEq] at h
          rw [← h]
          constructor
          · simp only []
            omega
          · intro nbu cdu2 hnbu hcdu
            exact absurd hnbu (by simp)

/-- C1 witness: the single-column INSERT of `c1Buf` against `c1Reg` decodes
to one value with no null flags set: 1 + 0 = 1. -/
theorem c1_row_event_null_consistency_witness :
    c1Body.column_data.length + c1Body.null_bitmap.count true = c1Body.number_of_columns :=
  (c1_row_event_null_consistency c1Buf 23 c1Reg c1Body rfl).1
